import Mathlib

/-!
# Verification of the Sensor-Dash-IOT ingestion-to-query pipeline

Shallow embedding of the repository's code and of the spec-described
backend, with theorems settling the frozen claims.

Frontend code (`src/frontend/src/components/IOTDashboard.jsx`) is embedded
directly.  JavaScript numbers are modelled as rationals (the model excludes
non-finite values, which cannot arise from the JSON payloads handled here);
JavaScript values are modelled by the inductive `JSValue`, with `null`
standing for both `null` and `undefined` (the code never distinguishes
them).
-/

/-- Model of a JavaScript value as it appears in the dashboard's data:
`null`/`undefined`, a finite number, a string, or a plain object. -/
inductive JSValue where
  | null : JSValue
  | num (q : ℚ) : JSValue
  | str (s : String) : JSValue
  | obj (fields : List (String × JSValue)) : JSValue

/-- Field lookup in an object's field list (first match wins, as in JS). -/
def lookupField : List (String × JSValue) → String → JSValue
  | [], _ => .null
  | (k', v) :: rest, k => if k' = k then v else lookupField rest k

/-- Property access `v?.k`: `undefined` (here `.null`) on non-objects. -/
def getField : JSValue → String → JSValue
  | .null, _ => .null
  | .num _, _ => .null
  | .str _, _ => .null
  | .obj fields, k => lookupField fields k

/-- Test `typeof v === "number"`. -/
def jsIsNumber : JSValue → Bool
  | .null => false
  | .num _ => true
  | .str _ => false
  | .obj _ => false

/-- Test `typeof v === "string"`. -/
def jsIsString : JSValue → Bool
  | .null => false
  | .num _ => false
  | .str _ => true
  | .obj _ => false

/-- JavaScript truthiness of a modelled value. -/
def jsTruthy : JSValue → Bool
  | .null => false
  | .num q => decide (q ≠ 0)
  | .str s => decide (s ≠ "")
  | .obj _ => true

/-- The numeric payload of a `.num`; `0` otherwise (only used under a
`jsIsNumber` guard, mirroring a JS `typeof` check before use). -/
def numVal : JSValue → ℚ
  | .null => 0
  | .num q => q
  | .str _ => 0
  | .obj _ => 0

/-- Two-digit padding for the fractional part of `toFixed(2)`. -/
def pad2 (n : ℕ) : String :=
  if n < 10 then "0" ++ toString n else toString n

/-- Model of JavaScript `x.toFixed(2)`: round to hundredths and render
with exactly two decimals. -/
def toFixed2 (q : ℚ) : String :=
  let n : ℤ := ⌊q * 100 + 1 / 2⌋
  let sign := if n < 0 then "-" else ""
  let m := n.natAbs
  sign ++ toString (m / 100) ++ "." ++ pad2 (m % 100)

/-- Embedding of the shared shape of `extractTemperature` / `extractHumidity`
(`IOTDashboard.jsx` lines 74-110); the two JS functions are textually
identical up to the field name and unit suffix, which are the two
parameters here. -/
def extractReadingField (key unit : String) (reading : JSValue) : String :=
  let v := getField (getField reading "readings") key
  match v with
  | .str s => s
  | .num q => toFixed2 q ++ unit
  | _ =>
    let vv := getField v "value"
    if jsTruthy vv && jsIsNumber vv then toFixed2 (numVal vv) ++ unit
    else
      match getField reading key with
      | .num q2 => toFixed2 q2 ++ unit
      | t2 =>
        let tv2 := getField t2 "value"
        if jsTruthy tv2 && jsIsNumber tv2 then toFixed2 (numVal tv2) ++ unit
        else "N/A"

/-- Embedding of `extractTemperature` (`IOTDashboard.jsx` lines 74-91). -/
def extractTemperature (reading : JSValue) : String :=
  extractReadingField "temperature" " °C" reading

/-- Embedding of `extractHumidity` (`IOTDashboard.jsx` lines 93-110). -/
def extractHumidity (reading : JSValue) : String :=
  extractReadingField "humidity" " %" reading

/-- The shapes the code actually accepts for `key` on a reading: under
`readings` a string, a number, or an object whose `value` is a truthy
(hence nonzero) number; at top level a number or an object whose `value`
is a truthy number. -/
def recognizedField (key : String) (reading : JSValue) : Bool :=
  let v := getField (getField reading "readings") key
  jsIsString v || jsIsNumber v ||
    (jsTruthy (getField v "value") && jsIsNumber (getField v "value")) ||
    jsIsNumber (getField reading key) ||
    (jsTruthy (getField (getField reading key) "value") &&
      jsIsNumber (getField (getField reading key) "value"))

/-- The stored string when `key` under `readings` is a string. -/
def stringShape (key : String) (reading : JSValue) : Option String :=
  match getField (getField reading "readings") key with
  | .str s => some s
  | _ => none

@[simp] theorem getField_null (k : String) : getField JSValue.null k = JSValue.null := rfl

@[simp] theorem getField_num (q : ℚ) (k : String) : getField (JSValue.num q) k = JSValue.null := rfl

@[simp] theorem getField_str (s k : String) : getField (JSValue.str s) k = JSValue.null := rfl

@[simp] theorem getField_obj (fs : List (String × JSValue)) (k : String) :
    getField (JSValue.obj fs) k = lookupField fs k := rfl

@[simp] theorem jsTruthy_null : jsTruthy JSValue.null = false := rfl

@[simp] theorem jsTruthy_num (q : ℚ) : jsTruthy (JSValue.num q) = decide (q ≠ 0) := rfl

@[simp] theorem jsTruthy_obj (fs : List (String × JSValue)) : jsTruthy (JSValue.obj fs) = true := rfl

@[simp] theorem jsIsNumber_null : jsIsNumber JSValue.null = false := rfl

@[simp] theorem jsIsNumber_num (q : ℚ) : jsIsNumber (JSValue.num q) = true := rfl

@[simp] theorem jsIsNumber_str (s : String) : jsIsNumber (JSValue.str s) = false := rfl

@[simp] theorem jsIsNumber_obj (fs : List (String × JSValue)) : jsIsNumber (JSValue.obj fs) = false := rfl

@[simp] theorem jsIsString_null : jsIsString JSValue.null = false := rfl

@[simp] theorem jsIsString_num (q : ℚ) : jsIsString (JSValue.num q) = false := rfl

@[simp] theorem jsIsString_str (s : String) : jsIsString (JSValue.str s) = true := rfl

@[simp] theorem jsIsString_obj (fs : List (String × JSValue)) : jsIsString (JSValue.obj fs) = false := rfl

@[simp] theorem numVal_num (q : ℚ) : numVal (JSValue.num q) = q := rfl

theorem append_unit_ne_empty (a u : String) (h : 0 < u.length) :
    a ++ u ≠ "" := by
  intro hc
  have hlen : (a ++ u).length = 0 := by rw [hc]; rfl
  rw [String.length_append] at hlen
  omega

theorem extractReadingField_na (key unit : String) (r : JSValue)
    (hrec : recognizedField key r = false) :
    extractReadingField key unit r = "N/A" := by
  unfold recognizedField at hrec
  simp only [Bool.or_eq_false_iff] at hrec
  obtain ⟨⟨⟨⟨hA, hB⟩, hC⟩, hD⟩, hE⟩ := hrec
  rcases hv : getField (getField r "readings") key with _ | q | s | fs
  · rcases hk : getField r key with _ | q2 | s2 | fs2 <;>
      rw [hk] at hE <;> simp at hE
    · simp [extractReadingField, hv, hk]
    · rw [hk] at hD; simp at hD
    · simp [extractReadingField, hv, hk]
    · simp [extractReadingField, hv, hk]
      intro h h'
      simp [hE h] at h'
  · rw [hv] at hB; simp at hB
  · rw [hv] at hA; simp at hA
  · rw [hv] at hC; simp only [getField_obj] at hC
    rcases hk : getField r key with _ | q2 | s2 | fs2 <;>
      rw [hk] at hE <;> simp at hE
    · simp [extractReadingField, hv, hk, hC]
    · rw [hk] at hD; simp at hD
    · simp [extractReadingField, hv, hk, hC]
    · simp [extractReadingField, hv, hk, hC]
      intro h h'
      simp [hE h] at h'

theorem extractReadingField_str (key unit : String) (r : JSValue) (s : String)
    (hs : stringShape key r = some s) :
    extractReadingField key unit r = s := by
  unfold stringShape at hs
  rcases hv : getField (getField r "readings") key with _ | q | s' | fs <;>
    rw [hv] at hs <;> simp at hs
  simp [extractReadingField, hv, hs]

theorem extractReadingField_fmt (key unit : String) (hu : 0 < unit.length)
    (r : JSValue) (hrec : recognizedField key r = true)
    (hns : stringShape key r = none) :
    ∃ q, extractReadingField key unit r = toFixed2 q ++ unit
      ∧ extractReadingField key unit r ≠ "" := by
  unfold recognizedField at hrec
  rcases hv : getField (getField r "readings") key with _ | q | s | fs
  · rw [hv] at hrec
    simp at hrec
    rcases hk : getField r key with _ | q2 | s2 | fs2 <;> rw [hk] at hrec
    · simp at hrec
    · exact ⟨q2, by simp [extractReadingField, hv, hk],
        by simp [extractReadingField, hv, hk]
           exact append_unit_ne_empty _ _ hu⟩
    · simp at hrec
    · simp at hrec
      refine ⟨numVal (lookupField fs2 "value"), ?_, ?_⟩
      · simp [extractReadingField, hv, hk, hrec.1, hrec.2]
      · simp [extractReadingField, hv, hk, hrec.1, hrec.2]
        exact append_unit_ne_empty _ _ hu
  · exact ⟨q, by simp [extractReadingField, hv],
      by simp [extractReadingField, hv]; exact append_unit_ne_empty _ _ hu⟩
  · unfold stringShape at hns; rw [hv] at hns; simp at hns
  · rw [hv] at hrec
    simp only [Bool.or_eq_true, jsIsString_obj, jsIsNumber_obj, getField_obj,
      Bool.false_eq_true, false_or] at hrec
    rcases h3 : (jsTruthy (lookupField fs "value") &&
        jsIsNumber (lookupField fs "value")) with _ | _
    · rw [h3] at hrec
      simp only [Bool.false_eq_true, false_or] at hrec
      rcases hk : getField r key with _ | q2 | s2 | fs2 <;> rw [hk] at hrec
      · simp at hrec
      · refine ⟨q2, ?_, ?_⟩
        · simp [extractReadingField, hv, hk, h3]
        · simp [extractReadingField, hv, hk, h3]
          exact append_unit_ne_empty _ _ hu
      · simp at hrec
      · simp at hrec
        refine ⟨numVal (lookupField fs2 "value"), ?_, ?_⟩
        · simp [extractReadingField, hv, hk, h3, hrec.1, hrec.2]
        · simp [extractReadingField, hv, hk, h3, hrec.1, hrec.2]
          exact append_unit_ne_empty _ _ hu
    · refine ⟨numVal (lookupField fs "value"), ?_, ?_⟩
      · simp [extractReadingField, hv, h3]
      · simp [extractReadingField, hv, h3]
        exact append_unit_ne_empty _ _ hu

/-- Claim C10 (amended): `extractTemperature` and `extractHumidity` are total
(never throw, being total Lean functions): they return `"N/A"` whenever the
reading carries no temperature (resp. humidity) in a shape the code
recognizes — under `readings` a string, a bare number, or an object with
nonzero numeric `value`; at top level a bare number or an object with
nonzero numeric `value` (a top-level string is not recognized) — and
otherwise return the stored string verbatim (which may be empty) or a
non-empty formatted string. -/
theorem extract_fields_total_spec (r : JSValue) :
    (recognizedField "temperature" r = false → extractTemperature r = "N/A")
    ∧ (∀ s, stringShape "temperature" r = some s → extractTemperature r = s)
    ∧ (recognizedField "temperature" r = true →
        stringShape "temperature" r = none →
        ∃ q, extractTemperature r = toFixed2 q ++ " °C"
          ∧ extractTemperature r ≠ "")
    ∧ (recognizedField "humidity" r = false → extractHumidity r = "N/A")
    ∧ (∀ s, stringShape "humidity" r = some s → extractHumidity r = s)
    ∧ (recognizedField "humidity" r = true →
        stringShape "humidity" r = none →
        ∃ q, extractHumidity r = toFixed2 q ++ " %"
          ∧ extractHumidity r ≠ "") :=
  ⟨extractReadingField_na "temperature" " °C" r,
   fun s => extractReadingField_str "temperature" " °C" r s,
   extractReadingField_fmt "temperature" " °C" (by decide) r,
   extractReadingField_na "humidity" " %" r,
   fun s => extractReadingField_str "humidity" " %" r s,
   extractReadingField_fmt "humidity" " %" (by decide) r⟩

/-- Witness for C10's theorem at concrete inputs: a reading whose nested
temperature is a string is returned verbatim, and a `null` reading yields
`"N/A"` for humidity. -/
theorem extract_fields_total_spec_witness :
    extractTemperature (JSValue.obj [("readings", JSValue.obj
      [("temperature", JSValue.str "29.42 °C")])]) = "29.42 °C"
    ∧ extractHumidity JSValue.null = "N/A" :=
  ⟨(extract_fields_total_spec (JSValue.obj [("readings", JSValue.obj
      [("temperature", JSValue.str "29.42 °C")])])).2.1 "29.42 °C" (by decide),
   (extract_fields_total_spec JSValue.null).2.2.2.1 (by decide)⟩

/-- Counterexample to C10 as stated.  Three recognized-per-the-claim shapes
on which the code does not return a non-empty formatted string: an empty
string stored under `readings.temperature` is returned verbatim (empty,
not `"N/A"` and not a non-empty formatted string); a top-level string
`temperature` yields `"N/A"`; an object with numeric `value` zero under
`readings.humidity` yields `"N/A"` (zero is falsy in `hum?.value &&`). -/
theorem extract_fields_claim_cex :
    extractTemperature (JSValue.obj [("readings", JSValue.obj
      [("temperature", JSValue.str "")])]) = ""
    ∧ extractTemperature (JSValue.obj
      [("temperature", JSValue.str "29.42 °C")]) = "N/A"
    ∧ extractHumidity (JSValue.obj [("readings", JSValue.obj
      [("humidity", JSValue.obj [("value", JSValue.num 0)])])]) = "N/A" := by
  decide

/-- Digit run to a natural number, most significant first. -/
def digitsVal (ds : List Char) : ℕ :=
  ds.foldl (fun acc c => acc * 10 + (c.toNat - Char.toNat '0')) 0

/-- Model of JavaScript `parseFloat`: skip leading whitespace, optional
sign, decimal digits with optional fraction and optional exponent; `none`
models the `NaN` result when no digits are found.  (Non-finite inputs such
as `"Infinity"` are outside the rational-number model.) -/
def parseFloat (s : String) : Option ℚ :=
  let cs := s.data.dropWhile Char.isWhitespace
  let signSplit : ℚ × List Char :=
    match cs with
    | '-' :: rest => (-1, rest)
    | '+' :: rest => (1, rest)
    | _ => (1, cs)
  let sign := signSplit.1
  let cs1 := signSplit.2
  let intPart := cs1.takeWhile Char.isDigit
  let cs2 := cs1.dropWhile Char.isDigit
  let fracSplit : List Char × List Char :=
    match cs2 with
    | '.' :: rest => (rest.takeWhile Char.isDigit, rest.dropWhile Char.isDigit)
    | _ => ([], cs2)
  let fracPart := fracSplit.1
  let cs3 := fracSplit.2
  if intPart.isEmpty && fracPart.isEmpty then none
  else
    let mant : ℚ :=
      (digitsVal intPart : ℚ) + (digitsVal fracPart : ℚ) / ((10 : ℚ) ^ fracPart.length)
    let expv : ℤ :=
      match cs3 with
      | 'e' :: rest | 'E' :: rest =>
        match rest with
        | '-' :: ds => -(digitsVal (ds.takeWhile Char.isDigit) : ℤ)
        | '+' :: ds => (digitsVal (ds.takeWhile Char.isDigit) : ℤ)
        | ds => (digitsVal (ds.takeWhile Char.isDigit) : ℤ)
      | _ => 0
    some (sign * mant * (10 : ℚ) ^ expv)

/-- Embedding of the inner `extractNumeric` of `calculateAnalytics`
(`IOTDashboard.jsx` lines 120-128): a bare number, else `parseFloat` of a
string (`null` for `NaN`), else an object's truthy numeric `value`
(`val?.value` is `undefined`, hence falsy, on `null`). -/
def extractNumeric (val : JSValue) : Option ℚ :=
  match val with
  | .num q => some q
  | .str s => parseFloat s
  | .null => none
  | .obj fs =>
    if jsTruthy (lookupField fs "value") && jsIsNumber (lookupField fs "value")
    then some (numVal (lookupField fs "value")) else none

/-- The key vocabulary scanned by the dashboard (`sensorKeys`,
`IOTDashboard.jsx` line 117). -/
def sensorKeys : List String := ["temperature", "humidity", "bpm", "spo2", "x", "y", "z"]

/-- Embedding of `data.map((r) => extractNumeric(r.readings?.[key])).filter(number)`
(`IOTDashboard.jsx` lines 131-133). -/
def numericValues (data : List JSValue) (key : String) : List ℚ :=
  data.filterMap (fun r => extractNumeric (getField (getField r "readings") key))

/-- Per-key statistics record built by `calculateAnalytics`. -/
structure Stats where
  min : ℚ
  max : ℚ
  avg : ℚ
  count : ℕ
deriving DecidableEq, Repr

/-- The statistics entry for one key (`IOTDashboard.jsx` lines 135-142):
present exactly when at least one numeric value was found. -/
def statsFor (data : List JSValue) (key : String) : Option Stats :=
  match numericValues data key with
  | [] => none
  | v :: vs =>
    some { min := vs.foldl Min.min v
           max := vs.foldl Max.max v
           avg := (v :: vs).sum / ((v :: vs).length : ℚ)
           count := (v :: vs).length }

/-- The value returned by `calculateAnalytics` on non-empty input. -/
structure AnalyticsResult where
  perKey : List (String × Stats)
  totalReadings : ℕ
  rangeStart : JSValue
  rangeEnd : JSValue

/-- Embedding of `calculateAnalytics` (`IOTDashboard.jsx` lines 114-153):
`null` on `null`/empty input, else per-key stats for keys with at least
one numeric value, `totalReadings`, and the timestamps of the last and
first elements as the date range. -/
def calculateAnalytics (data : Option (List JSValue)) : Option AnalyticsResult :=
  match data with
  | none => none
  | some l =>
    if l.length = 0 then none
    else some
      { perKey := sensorKeys.filterMap
          (fun key => (statsFor l key).map (fun st => (key, st)))
        totalReadings := l.length
        rangeStart := getField ((l.getLast?).getD JSValue.null) "timestamp"
        rangeEnd := getField ((l.head?).getD JSValue.null) "timestamp" }

/-- The statistics `calculateAnalytics` reports for one key. -/
def analyticsStats (data : Option (List JSValue)) (key : String) : Option Stats :=
  match calculateAnalytics data with
  | none => none
  | some res => res.perKey.lookup key

/-- The `totalReadings` field reported by `calculateAnalytics`. -/
def analyticsTotal (data : Option (List JSValue)) : Option ℕ :=
  (calculateAnalytics data).map AnalyticsResult.totalReadings

theorem foldl_min_le_start (vs : List ℚ) : ∀ a : ℚ, vs.foldl Min.min a ≤ a := by
  induction vs with
  | nil => intro a; exact le_refl a
  | cons b t ih => intro a; exact le_trans (ih (Min.min a b)) (min_le_left a b)

theorem foldl_min_le_mem (vs : List ℚ) : ∀ a x : ℚ, x ∈ vs → vs.foldl Min.min a ≤ x := by
  induction vs with
  | nil => intro a x hx; cases hx
  | cons b t ih =>
    intro a x hx
    rcases List.mem_cons.mp hx with rfl | hx
    · exact le_trans (foldl_min_le_start t (Min.min a x)) (min_le_right a x)
    · exact ih (Min.min a b) x hx

theorem foldl_min_le (v : ℚ) (vs : List ℚ) : ∀ x ∈ v :: vs, vs.foldl Min.min v ≤ x := by
  intro x hx
  rcases List.mem_cons.mp hx with rfl | hx
  · exact foldl_min_le_start vs x
  · exact foldl_min_le_mem vs v x hx

theorem le_foldl_max_start (vs : List ℚ) : ∀ a : ℚ, a ≤ vs.foldl Max.max a := by
  induction vs with
  | nil => intro a; exact le_refl a
  | cons b t ih => intro a; exact le_trans (le_max_left a b) (ih (Max.max a b))

theorem le_foldl_max_mem (vs : List ℚ) : ∀ a x : ℚ, x ∈ vs → x ≤ vs.foldl Max.max a := by
  induction vs with
  | nil => intro a x hx; cases hx
  | cons b t ih =>
    intro a x hx
    rcases List.mem_cons.mp hx with rfl | hx
    · exact le_trans (le_max_right a x) (le_foldl_max_start t (Max.max a x))
    · exact ih (Max.max a b) x hx

theorem le_foldl_max (v : ℚ) (vs : List ℚ) : ∀ x ∈ v :: vs, x ≤ vs.foldl Max.max v := by
  intro x hx
  rcases List.mem_cons.mp hx with rfl | hx
  · exact le_foldl_max_start vs x
  · exact le_foldl_max_mem vs v x hx

theorem length_mul_le_sum (l : List ℚ) (m : ℚ) (h : ∀ x ∈ l, m ≤ x) :
    (l.length : ℚ) * m ≤ l.sum := by
  induction l with
  | nil => simp
  | cons b t ih =>
    have hb := h b (List.mem_cons_self b t)
    have ht := ih (fun x hx => h x (List.mem_cons_of_mem b hx))
    simp only [List.length_cons, List.sum_cons]
    push_cast
    have hr : ((t.length : ℚ) + 1) * m = (t.length : ℚ) * m + m := by ring
    rw [hr]
    linarith

theorem sum_le_length_mul (l : List ℚ) (M : ℚ) (h : ∀ x ∈ l, x ≤ M) :
    l.sum ≤ (l.length : ℚ) * M := by
  induction l with
  | nil => simp
  | cons b t ih =>
    have hb := h b (List.mem_cons_self b t)
    have ht := ih (fun x hx => h x (List.mem_cons_of_mem b hx))
    simp only [List.length_cons, List.sum_cons]
    push_cast
    have hr : ((t.length : ℚ) + 1) * M = (t.length : ℚ) * M + M := by ring
    rw [hr]
    linarith

theorem lookup_filterMap_not_mem (keys : List String) (g : String → Option Stats)
    (k : String) (hk : k ∉ keys) :
    (keys.filterMap (fun key => (g key).map (fun st => (key, st)))).lookup k = none := by
  induction keys with
  | nil => rfl
  | cons a rest ih =>
    have hka : k ≠ a := fun h => hk (h ▸ List.mem_cons_self a rest)
    have hkr : k ∉ rest := fun h => hk (List.mem_cons_of_mem a h)
    rcases hga : g a with _ | st
    · simp only [List.filterMap_cons, hga, Option.map_none']
      exact ih hkr
    · simp only [List.filterMap_cons, hga, Option.map_some']
      simp only [List.lookup_cons, beq_false_of_ne hka]
      exact ih hkr

theorem lookup_filterMap_mem (keys : List String) (g : String → Option Stats)
    (k : String) (hnd : keys.Nodup) (hk : k ∈ keys) :
    (keys.filterMap (fun key => (g key).map (fun st => (key, st)))).lookup k = g k := by
  induction keys with
  | nil => cases hk
  | cons a rest ih =>
    rcases List.nodup_cons.mp hnd with ⟨hna, hnr⟩
    by_cases hka : k = a
    · subst hka
      rcases hga : g k with _ | st
      · simp only [List.filterMap_cons, hga, Option.map_none']
        exact lookup_filterMap_not_mem rest g k hna
      · simp only [List.filterMap_cons, hga, Option.map_some']
        simp [List.lookup_cons]
    · have hkr : k ∈ rest := (List.mem_cons.mp hk).resolve_left hka
      rcases hga : g a with _ | st
      · simp only [List.filterMap_cons, hga, Option.map_none']
        exact ih hnr hkr
      · simp only [List.filterMap_cons, hga, Option.map_some']
        simp only [List.lookup_cons, beq_false_of_ne hka]
        exact ih hnr hkr

theorem sensorKeys_nodup : sensorKeys.Nodup := by decide

theorem analyticsStats_eq_statsFor (l : List JSValue) (hne : l ≠ [])
    (k : String) (hk : k ∈ sensorKeys) :
    analyticsStats (some l) k = statsFor l k := by
  rcases l with _ | ⟨a, t⟩
  · exact absurd rfl hne
  · simp only [analyticsStats, calculateAnalytics, List.length_cons,
      Nat.succ_ne_zero, if_false]
    exact lookup_filterMap_mem sensorKeys (statsFor (a :: t)) k sensorKeys_nodup hk

/-- Claim C9 (amended): `calculateAnalytics` returns `null` exactly when the
input is `null` or empty; otherwise, for each key of the sensor vocabulary
for which at least one reading yields a numeric value (as a bare number, a
`parseFloat`-parseable string, or an object with *nonzero* numeric
`value`), the result contains statistics with `min ≤ avg ≤ max` and
`count` equal to the number of readings yielding a numeric value for that
key (hence `count ≥ 1`), `totalReadings` equals the length of the input
list, and keys with no numeric value are absent from the result. -/
theorem calculateAnalytics_spec (data : Option (List JSValue)) :
    (calculateAnalytics data = none ↔ data = none ∨ data = some [])
    ∧ (∀ l, data = some l → l ≠ [] → analyticsTotal data = some l.length)
    ∧ (∀ l k, data = some l → l ≠ [] → k ∈ sensorKeys →
        (numericValues l k = [] → analyticsStats data k = none)
        ∧ (∀ v vs, numericValues l k = v :: vs →
            ∃ st, analyticsStats data k = some st
              ∧ st.count = (v :: vs).length ∧ 1 ≤ st.count
              ∧ st.min ≤ st.avg ∧ st.avg ≤ st.max)) := by
  refine ⟨?_, ?_, ?_⟩
  · rcases data with _ | l
    · simp [calculateAnalytics]
    · rcases l with _ | ⟨a, t⟩
      · simp [calculateAnalytics]
      · simp [calculateAnalytics]
  · rintro l rfl hne
    rcases l with _ | ⟨a, t⟩
    · exact absurd rfl hne
    · simp [analyticsTotal, calculateAnalytics]
  · rintro l k rfl hne hk
    rw [analyticsStats_eq_statsFor l hne k hk]
    constructor
    · intro hnv
      simp [statsFor, hnv]
    · intro v vs hnv
      have hlen : (0 : ℚ) < ((v :: vs).length : ℚ) := by
        exact_mod_cast Nat.succ_pos vs.length
      refine ⟨⟨vs.foldl Min.min v, vs.foldl Max.max v,
          (v :: vs).sum / ((v :: vs).length : ℚ), (v :: vs).length⟩,
        by simp [statsFor, hnv], rfl, Nat.succ_le_succ (Nat.zero_le _), ?_, ?_⟩
      · refine (le_div_iff₀ hlen).mpr ?_
        rw [mul_comm]
        exact length_mul_le_sum (v :: vs) _ (foldl_min_le v vs)
      · refine (div_le_iff₀ hlen).mpr ?_
        rw [mul_comm]
        exact sum_le_length_mul (v :: vs) _ (le_foldl_max v vs)

/-- Witness for C9's theorem: one reading with a bare numeric temperature
yields `totalReadings = 1`, temperature statistics with `count = 1` and
`min ≤ avg ≤ max`, and no humidity entry. -/
theorem calculateAnalytics_spec_witness :
    analyticsTotal (some [JSValue.obj [("readings", JSValue.obj
      [("temperature", JSValue.num 25)])]]) = some 1
    ∧ (∃ st, analyticsStats (some [JSValue.obj [("readings", JSValue.obj
        [("temperature", JSValue.num 25)])]]) "temperature" = some st
        ∧ st.count = 1 ∧ 1 ≤ st.count ∧ st.min ≤ st.avg ∧ st.avg ≤ st.max)
    ∧ analyticsStats (some [JSValue.obj [("readings", JSValue.obj
        [("temperature", JSValue.num 25)])]]) "humidity" = none := by
  refine ⟨(calculateAnalytics_spec _).2.1 _ rfl (List.cons_ne_nil _ _), ?_, ?_⟩
  · exact ((calculateAnalytics_spec _).2.2 _ "temperature" rfl
      (List.cons_ne_nil _ _) (by decide)).2 25 [] (by decide)
  · exact ((calculateAnalytics_spec _).2.2 _ "humidity" rfl
      (List.cons_ne_nil _ _) (by decide)).1 (by decide)

/-- Counterexample to C9 as stated: for the single reading whose
`readings.temperature` is the object `{value: 0}` — an "object with
numeric `value`" in the claim's words — the claim requires a temperature
statistics entry with `count = 1`, but `extractNumeric` rejects the falsy
`0` (`val?.value &&`), so the code returns a result with no temperature
key at all. -/
theorem calculateAnalytics_claim_cex :
    analyticsStats (some [JSValue.obj [("readings", JSValue.obj
      [("temperature", JSValue.obj [("value", JSValue.num 0)])])]])
      "temperature" = none
    ∧ (calculateAnalytics (some [JSValue.obj [("readings", JSValue.obj
      [("temperature", JSValue.obj [("value", JSValue.num 0)])])]])).isSome
      = true := by
  constructor
  · rfl
  · rfl

/-! ## Backend: storage, query service, ingestion, lifecycle

The backend Python sources (`mqtt_manager.py`, `flask_api.py`) are not in
the source tree; only the deployment document (`src/unnamed/part_000`)
carries code for the archival job and the TTL index.  Query-service and
ingestion operations are therefore modelled from the spec, as marked on
each definition. -/

/-- A stored Reading: `sensor_id`, UTC timestamp (modelled as seconds),
canonical fields (name, magnitude, unit), originating topic, raw payload,
and quality tag (spec section 3). -/
structure Reading where
  sensor_id : String
  timestamp : ℕ
  fields : List (String × ℚ × String)
  topic : String
  raw : String
  quality : String
deriving DecidableEq, Repr

/-- The persisted layout: hot readings collection plus cold archive
collection (spec section 6). -/
structure Store where
  hot : List Reading
  archive : List Reading
deriving DecidableEq, Repr

/-- Descending-timestamp ordering used for query results. -/
def tsGe (a b : Reading) : Prop := b.timestamp ≤ a.timestamp

instance : DecidableRel tsGe :=
  fun a b => inferInstanceAs (Decidable (b.timestamp ≤ a.timestamp))

instance : IsTotal Reading tsGe :=
  ⟨fun a b => Or.symm (le_total a.timestamp b.timestamp)⟩

instance : IsTrans Reading tsGe :=
  ⟨fun _ _ _ hab hbc => le_trans hbc hab⟩

/-- Sort readings most recent first. -/
def sortDesc (l : List Reading) : List Reading := List.insertionSort tsGe l

/-- Inclusive `[start, end]` window test; a missing bound is no constraint. -/
def inWindow (start? stop? : Option ℕ) (t : ℕ) : Bool :=
  (match start? with
   | none => true
   | some a => decide (a ≤ t)) &&
  (match stop? with
   | none => true
   | some b => decide (t ≤ b))

/-- Modelled from the spec: the Query Service filter underlying
`list(sensor_id, start?, end?, ...)` — the readings of the sensor whose
timestamp lies in the inclusive window (spec section 4.3; the Flask query
code is missing from the source tree). -/
def readingsFor (st : Store) (s : String) (start? stop? : Option ℕ) : List Reading :=
  st.hot.filter (fun r => r.sensor_id == s && inWindow start? stop? r.timestamp)

/-- Modelled from the spec: `list(sensor_id, start?, end?, page, page_size)`
(spec section 4.3; the Flask query code is missing from the source tree).
Non-positive `page`/`page_size` (here `0`) fall back to the defaults 1 and
50, `page_size` is clamped to 10000, and the matching readings are ordered
descending by timestamp and sliced to the requested page. -/
def listReadings (st : Store) (s : String) (start? stop? : Option ℕ)
    (page pageSize : ℕ) : List Reading :=
  let p := if page = 0 then 1 else page
  let sz := if pageSize = 0 then 50 else min pageSize 10000
  ((sortDesc (readingsFor st s start? stop?)).drop ((p - 1) * sz)).take sz

/-- Modelled from the spec: `latest(sensor_id)` — the single most recent
reading for the sensor, empty when none exist (spec section 4.3; the Flask
query code is missing from the source tree). -/
def latestReading (st : Store) (s : String) : Option Reading :=
  (sortDesc (readingsFor st s none none)).head?

/-- Claim C1: `latest(sensor_id)` is empty exactly when the sensor has no
readings; any returned reading belongs to the store, is for the requested
sensor, and has the maximal timestamp among that sensor's readings; and
`latest(s)` always equals the head of `list(s, page=1, page_size=1)`. -/
theorem latest_spec (st : Store) (s : String) :
    (latestReading st s = none ↔ readingsFor st s none none = [])
    ∧ (∀ r, latestReading st s = some r →
        r ∈ st.hot ∧ r.sensor_id = s
        ∧ ∀ r' ∈ st.hot, r'.sensor_id = s → r'.timestamp ≤ r.timestamp)
    ∧ latestReading st s = (listReadings st s none none 1 1).head? := by
  have hperm : (sortDesc (readingsFor st s none none)).Perm
      (readingsFor st s none none) := List.perm_insertionSort tsGe _
  have hsorted : List.Sorted tsGe (sortDesc (readingsFor st s none none)) :=
    List.sorted_insertionSort tsGe _
  refine ⟨?_, ?_, ?_⟩
  · rw [latestReading, List.head?_eq_none_iff]
    constructor
    · intro h
      rw [h] at hperm
      exact hperm.symm.eq_nil
    · intro h
      rw [h]
      rfl
  · intro r hr
    rcases hsort : sortDesc (readingsFor st s none none) with _ | ⟨a, tl⟩
    · rw [latestReading, hsort] at hr
      cases hr
    · rw [latestReading, hsort] at hr
      have har : a = r := Option.some.inj hr
      subst har
      rw [hsort] at hperm hsorted
      have hmem : a ∈ readingsFor st s none none :=
        hperm.mem_iff.mp (List.mem_cons_self a tl)
      obtain ⟨hhot, hcond⟩ := List.mem_filter.mp hmem
      have hsid : a.sensor_id = s := by
        simp [inWindow] at hcond
        exact hcond
      refine ⟨hhot, hsid, ?_⟩
      intro r' hr' hsid'
      have hmem' : r' ∈ readingsFor st s none none :=
        List.mem_filter.mpr ⟨hr', by simp [inWindow, hsid']⟩
      have h2 : r' ∈ a :: tl := hperm.mem_iff.mpr hmem'
      rcases List.mem_cons.mp h2 with rfl | h2
      · exact le_refl _
      · exact List.rel_of_sorted_cons hsorted r' h2
  · rcases hsort : sortDesc (readingsFor st s none none) with _ | ⟨a, tl⟩
    · simp only [latestReading, listReadings, hsort]
      rfl
    · simp only [latestReading, listReadings, hsort]
      rfl

/-- Sample readings and store used by witnesses for the query claims. -/
def sampleReading1 : Reading :=
  ⟨"sensor_01", 10, [("temperature", (29 : ℚ), "°C")],
   "TEMP/SUB/sensor_01", "r1", "good"⟩

def sampleReading2 : Reading :=
  ⟨"sensor_01", 20, [("humidity", (72 : ℚ), "%")],
   "TEMP/SUB/sensor_01", "r2", "good"⟩

def sampleReading3 : Reading :=
  ⟨"sensor_02", 30, [("bpm", (72 : ℚ), "bpm")],
   "TEMP/SUB/sensor_02", "r3", "good"⟩

def sampleStore : Store :=
  ⟨[sampleReading1, sampleReading2, sampleReading3], []⟩

/-- Witness for C1 at a concrete store: the reading with the later
timestamp is the latest and has maximal timestamp; the `list(1,1)`
equation holds. -/
theorem latest_spec_witness :
    (sampleReading2 ∈ sampleStore.hot ∧ sampleReading2.sensor_id = "sensor_01"
      ∧ ∀ r' ∈ sampleStore.hot, r'.sensor_id = "sensor_01" →
          r'.timestamp ≤ sampleReading2.timestamp)
    ∧ latestReading sampleStore "sensor_01" =
        (listReadings sampleStore "sensor_01" none none 1 1).head? :=
  ⟨(latest_spec sampleStore "sensor_01").2.1 sampleReading2 (by decide),
   (latest_spec sampleStore "sensor_01").2.2⟩

/-- Claim C2: for positive `page`/`page_size` (within the spec's clamp bound
of 10000), `list` returns exactly the readings of the sensor whose
timestamp lies in the inclusive window, ordered descending by timestamp,
sliced to the requested page: element `i` of the result is element
`(page-1)*page_size + i` of the full filtered descending sequence, and a
page past the end of the data is the empty sequence, not an error. -/
theorem list_spec (st : Store) (s : String) (start? stop? : Option ℕ)
    (page pageSize : ℕ) (hp : 1 ≤ page) (hps : 1 ≤ pageSize)
    (hmax : pageSize ≤ 10000) :
    (∀ r ∈ listReadings st s start? stop? page pageSize,
        r ∈ st.hot ∧ r.sensor_id = s ∧ inWindow start? stop? r.timestamp = true)
    ∧ List.Sorted tsGe (listReadings st s start? stop? page pageSize)
    ∧ (∀ i, i < pageSize →
        (listReadings st s start? stop? page pageSize)[i]? =
          (sortDesc (readingsFor st s start? stop?))[(page - 1) * pageSize + i]?)
    ∧ ((readingsFor st s start? stop?).length ≤ (page - 1) * pageSize →
        listReadings st s start? stop? page pageSize = []) := by
  have hperm : (sortDesc (readingsFor st s start? stop?)).Perm
      (readingsFor st s start? stop?) := List.perm_insertionSort tsGe _
  have hsorted : List.Sorted tsGe (sortDesc (readingsFor st s start? stop?)) :=
    List.sorted_insertionSort tsGe _
  have hnorm : listReadings st s start? stop? page pageSize =
      ((sortDesc (readingsFor st s start? stop?)).drop
        ((page - 1) * pageSize)).take pageSize := by
    simp only [listReadings]
    rw [if_neg (by omega : ¬ page = 0), if_neg (by omega : ¬ pageSize = 0),
      min_eq_left hmax]
  refine ⟨?_, ?_, ?_, ?_⟩
  · intro r hr
    rw [hnorm] at hr
    have hsub : (((sortDesc (readingsFor st s start? stop?)).drop
        ((page - 1) * pageSize)).take pageSize).Sublist
        (sortDesc (readingsFor st s start? stop?)) :=
      (List.take_sublist _ _).trans (List.drop_sublist _ _)
    have h2 : r ∈ readingsFor st s start? stop? :=
      hperm.mem_iff.mp (hsub.subset hr)
    obtain ⟨hhot, hcond⟩ := List.mem_filter.mp h2
    rw [Bool.and_eq_true, beq_iff_eq] at hcond
    exact ⟨hhot, hcond.1, hcond.2⟩
  · rw [hnorm]
    exact List.Pairwise.sublist
      ((List.take_sublist _ _).trans (List.drop_sublist _ _)) hsorted
  · intro i hi
    rw [hnorm, List.getElem?_take, if_pos hi, List.getElem?_drop]
  · intro hlen
    rw [hnorm]
    have hlen2 : (sortDesc (readingsFor st s start? stop?)).length ≤
        (page - 1) * pageSize := by
      rw [hperm.length_eq]
      exact hlen
    rw [List.drop_eq_nil_of_le hlen2, List.take_nil]

/-- Witness for C2 at a concrete store with `page = 2, page_size = 1`. -/
theorem list_spec_witness :
    (∀ r ∈ listReadings sampleStore "sensor_01" none none 2 1,
        r ∈ sampleStore.hot ∧ r.sensor_id = "sensor_01"
          ∧ inWindow none none r.timestamp = true)
    ∧ List.Sorted tsGe (listReadings sampleStore "sensor_01" none none 2 1)
    ∧ (∀ i, i < 1 →
        (listReadings sampleStore "sensor_01" none none 2 1)[i]? =
          (sortDesc (readingsFor sampleStore "sensor_01" none none))[(2 - 1) * 1 + i]?)
    ∧ ((readingsFor sampleStore "sensor_01" none none).length ≤ (2 - 1) * 1 →
        listReadings sampleStore "sensor_01" none none 2 1 = []) :=
  list_spec sampleStore "sensor_01" none none 2 1 (by decide) (by decide)
    (by decide)

/-- Modelled from the spec: the Ingestion Worker's storage write appends
one Reading to the hot collection (spec section 4.1 step 5; the MQTT
handler code is missing from the source tree). -/
def insertReading (st : Store) (r : Reading) : Store :=
  { st with hot := st.hot ++ [r] }

/-- The TTL retention window, from the deployment document's index
definition (`src/unnamed/part_000` line 138, `expireAfterSeconds: 604800`). -/
def DATA_RETENTION_SECONDS : ℕ := 604800

/-- Modelled from the spec: the background TTL expiry sweep removes every
hot reading whose timestamp is strictly before the cutoff (spec
section 4.2; the sweep itself is MongoDB's TTL monitor, external code). -/
def ttlSweep (cutoff : ℕ) (st : Store) : Store :=
  { st with hot := st.hot.filter (fun r => decide (cutoff ≤ r.timestamp)) }

/-- Modelled from the spec: `cleanup_old_data` (invoked at
`src/unnamed/part_000` line 259; its body is not in the source tree) —
explicit removal of hot readings older than a cutoff. -/
def cleanup_old_data (cutoff : ℕ) (st : Store) : Store :=
  { st with hot := st.hot.filter (fun r => decide (cutoff ≤ r.timestamp)) }

/-- Copy phase of `archive_old_data` (`src/unnamed/part_000` lines
326-331): the aggregation `$match` on `timestamp < archive_date` piped to
`$out`, which replaces the contents of `sensor_readings_archive` with the
matched set. -/
def archiveCopyPhase (cutoff : ℕ) (st : Store) : Store :=
  { st with archive := st.hot.filter (fun r => decide (r.timestamp < cutoff)) }

/-- Embedding of `archive_old_data` (`src/unnamed/part_000` lines
321-334): copy readings older than the cutoff into the archive via
`$out`, then `delete_many` them from the hot collection. -/
def archive_old_data (cutoff : ℕ) (st : Store) : Store :=
  let st1 := archiveCopyPhase cutoff st
  { st1 with hot := st1.hot.filter (fun r => !decide (r.timestamp < cutoff)) }

/-- Split a character list on `/`, keeping empty segments. -/
def splitSegsAux : List Char → List Char → List (List Char)
  | cur, [] => [cur.reverse]
  | cur, c :: cs =>
    if c = '/' then cur.reverse :: splitSegsAux [] cs
    else splitSegsAux (c :: cur) cs

/-- Modelled from the spec: `sensor_id` is the final path segment of the
topic (spec section 4.1 step 1; the MQTT handler code is missing from the
source tree). -/
def finalSegment (topic : String) : String :=
  String.mk (((splitSegsAux [] topic.data).getLast?).getD [])

/-- Modelled from the spec: an inbound payload is either a structured
object keyed by field names (carrying its original text as `raw`) or free
text (spec section 6). -/
inductive Payload where
  | structured (raw : String) (fields : List (String × ℚ)) : Payload
  | text (s : String) : Payload

/-- The fixed vocabulary of measurement names (spec section 3). -/
def fieldVocabulary : List String :=
  ["temperature", "humidity", "bpm", "spo2", "x", "y", "z"]

/-- Modelled from the spec: the structured decode succeeds only on
structured payloads, keeping the recognized keys (spec section 4.1
step 2). -/
def structuredDecode : Payload → Option (List (String × ℚ))
  | .structured _ fs => some (fs.filter (fun kv => fieldVocabulary.contains kv.1))
  | .text _ => none

/-- Read one number at the head of `cs` (digits with optional fractional
part); returns the value and the remaining characters. -/
def readNumber (cs : List Char) : ℚ × List Char :=
  let intPart := cs.takeWhile Char.isDigit
  let rest := cs.dropWhile Char.isDigit
  match rest with
  | '.' :: rest2 =>
    let fracPart := rest2.takeWhile Char.isDigit
    ((digitsVal intPart : ℚ) +
       (digitsVal fracPart : ℚ) / ((10 : ℚ) ^ fracPart.length),
     rest2.dropWhile Char.isDigit)
  | _ => ((digitsVal intPart : ℚ), rest)

/-- All numbers appearing in the text, left to right; the fuel argument is
the text length, enough since each step consumes at least one character. -/
def scanNumbersAux : ℕ → List Char → List ℚ
  | 0, _ => []
  | _ + 1, [] => []
  | fuel + 1, c :: cs =>
    if c.isDigit then
      let r := readNumber (c :: cs)
      r.1 :: scanNumbersAux fuel r.2
    else scanNumbersAux fuel cs

/-- Numbers appearing in a payload text, in order. -/
def scanNumbers (s : String) : List ℚ :=
  scanNumbersAux s.data.length s.data

/-- Modelled from the spec: the positional numeric-extraction fallback —
the first number in the text becomes the temperature field, the second
the humidity field (spec section 4.1 step 2, section 6). -/
def decodeFallback (s : String) : List (String × ℚ) :=
  match scanNumbers s with
  | [] => []
  | [t] => [("temperature", t)]
  | t :: h :: _ => [("temperature", t), ("humidity", h)]

/-- Modelled from the spec: try the structured decode first; on its
failure (free-text payloads) apply the positional fallback (spec
section 4.1 step 2). -/
def decodePayload : Payload → List (String × ℚ)
  | .structured raw fs =>
    ((structuredDecode (.structured raw fs)).getD [])
  | .text s => decodeFallback s

/-- Modelled from the spec: default units by field name (spec section 4.1
step 3). -/
def defaultUnit (k : String) : String :=
  if k = "temperature" then "°C"
  else if k = "humidity" then "%"
  else if k = "bpm" then "bpm"
  else if k = "spo2" then "%"
  else if k = "x" ∨ k = "y" ∨ k = "z" then "g"
  else ""

/-- The original payload text retained verbatim as `raw`. -/
def rawOf : Payload → String
  | .structured raw _ => raw
  | .text s => s

/-- Modelled from the spec: process one `(topic, payload)` message into at
most one Reading (spec section 4.1 steps 1-4); `none` is a dropped
message. -/
def processMessage (now : ℕ) (topic : String) (p : Payload) : Option Reading :=
  let sid := finalSegment topic
  if sid = "" then none
  else
    let fields := decodePayload p
    if fields.isEmpty then none
    else some
      { sensor_id := sid
        timestamp := now
        fields := fields.map (fun kv => (kv.1, kv.2, defaultUnit kv.1))
        topic := topic
        raw := rawOf p
        quality := "good" }

/-- Ingestion bookkeeping: stored readings, dropped-message count, and
ingestion-failure count (spec sections 4.1 and 7). -/
structure IngestState where
  stored : List Reading
  drops : ℕ
  failures : ℕ
deriving DecidableEq, Repr

/-- Modelled from the spec: handle one message — store the reading or
count a drop; either way the subscription loop continues. -/
def ingestStep (now : ℕ) (st : IngestState) (msg : String × Payload) : IngestState :=
  match processMessage now msg.1 msg.2 with
  | none => { st with drops := st.drops + 1 }
  | some r => { st with stored := st.stored ++ [r] }

/-- Modelled from the spec: the subscription loop, handling every
delivered message in order. -/
def runIngest (now : ℕ) : IngestState → List (String × Payload) → IngestState
  | st, [] => st
  | st, m :: ms => runIngest now (ingestStep now st m) ms

/-- Modelled from the spec: the fixed retry bound of 3 attempts (spec
section 4.1 step 5). -/
def maxWriteAttempts : ℕ := 3

/-- Modelled from the spec: bounded retry under the attempt-outcome oracle
`ok` (`ok i = true` iff attempt `i` would succeed), with `n` attempts
remaining starting at attempt `i`; `true` iff some tried attempt
succeeds. -/
def retryWrite (ok : ℕ → Bool) : ℕ → ℕ → Bool
  | _, 0 => false
  | i, n + 1 => if ok i then true else retryWrite ok (i + 1) n

/-- Modelled from the spec: write one reading with bounded retry — on
success exactly one copy is appended; on exhaustion nothing is stored and
the ingestion-failure count increments (spec section 4.1 step 5,
section 7). -/
def storeWithRetry (ok : ℕ → Bool) (st : IngestState) (r : Reading) : IngestState :=
  if retryWrite ok 0 maxWriteAttempts then { st with stored := st.stored ++ [r] }
  else { st with failures := st.failures + 1 }

/-- Modelled from the spec: one message through parse plus retry-protected
write. -/
def ingestStepRetry (now : ℕ) (ok : ℕ → Bool) (st : IngestState)
    (msg : String × Payload) : IngestState :=
  match processMessage now msg.1 msg.2 with
  | none => { st with drops := st.drops + 1 }
  | some r => storeWithRetry ok st r

/-- Modelled from the spec: the subscription loop with a per-message
write-outcome oracle. -/
def runIngestRetry (now : ℕ) :
    IngestState → List ((String × Payload) × (ℕ → Bool)) → IngestState
  | st, [] => st
  | st, m :: ms => runIngestRetry now (ingestStepRetry now m.2 st m.1) ms

theorem listReadings_subset_hot (st : Store) (s : String)
    (start? stop? : Option ℕ) (page pageSize : ℕ) (r : Reading)
    (hr : r ∈ listReadings st s start? stop? page pageSize) : r ∈ st.hot := by
  simp only [listReadings] at hr
  have h1 : r ∈ sortDesc (readingsFor st s start? stop?) :=
    ((List.take_sublist _ _).trans (List.drop_sublist _ _)).subset hr
  have h2 : r ∈ readingsFor st s start? stop? :=
    (List.perm_insertionSort tsGe _).mem_iff.mp h1
  exact (List.mem_filter.mp h2).1

/-- Claim C3: a message with an empty final topic segment, or whose
payload yields zero recognized fields after the structured decode and the
positional fallback, stores no Reading, counts one drop, leaves the
failure count untouched, and the subscription loop simply continues with
the remaining messages (the drop is non-fatal). -/
theorem drop_spec (now : ℕ) (topic : String) (p : Payload)
    (h : finalSegment topic = "" ∨ decodePayload p = []) :
    processMessage now topic p = none
    ∧ (∀ st : IngestState,
        (ingestStep now st (topic, p)).stored = st.stored
        ∧ (ingestStep now st (topic, p)).drops = st.drops + 1
        ∧ (ingestStep now st (topic, p)).failures = st.failures)
    ∧ (∀ st ms, runIngest now st ((topic, p) :: ms) =
        runIngest now { st with drops := st.drops + 1 } ms) := by
  have hnone : processMessage now topic p = none := by
    rcases h with h | h
    · simp [processMessage, h]
    · by_cases hsid : finalSegment topic = ""
      · simp [processMessage, hsid]
      · simp [processMessage, hsid, h]
  refine ⟨hnone, ?_, ?_⟩
  · intro st
    simp [ingestStep, hnone]
  · intro st ms
    show runIngest now (ingestStep now st (topic, p)) ms = _
    rw [ingestStep, hnone]

/-- Witness for C3: a topic ending in `/` has an empty sensor id; the
message is dropped. -/
theorem drop_spec_witness :
    finalSegment "TEMP/SUB/" = ""
    ∧ processMessage 0 "TEMP/SUB/" (Payload.text "no numbers here") = none :=
  ⟨by decide,
   (drop_spec 0 "TEMP/SUB/" (Payload.text "no numbers here")
     (Or.inl (by decide))).1⟩

/-- Claim C4: structured decode fails exactly on free-text payloads, and
for those the positional fallback maps the first number in the text to
the temperature field and the second to the humidity field. -/
theorem fallback_spec (s : String) :
    structuredDecode (Payload.text s) = none
    ∧ (scanNumbers s = [] → decodePayload (Payload.text s) = [])
    ∧ (∀ t, scanNumbers s = [t] →
        decodePayload (Payload.text s) = [("temperature", t)])
    ∧ (∀ t u rest, scanNumbers s = t :: u :: rest →
        decodePayload (Payload.text s) =
          [("temperature", t), ("humidity", u)]) := by
  refine ⟨rfl, ?_, ?_, ?_⟩
  · intro hnum
    simp [decodePayload, decodeFallback, hnum]
  · intro t hnum
    simp [decodePayload, decodeFallback, hnum]
  · intro t u rest hnum
    simp [decodePayload, decodeFallback, hnum]

/-- Witness for C4 on the legacy text `"T:24C H:65%"`: the two numbers
land in temperature and humidity, in that order. -/
theorem fallback_spec_witness :
    decodePayload (Payload.text "T:24C H:65%") =
      [("temperature", (24 : ℚ)), ("humidity", (65 : ℚ))] :=
  (fallback_spec "T:24C H:65%").2.2.2 24 65 [] (by decide)

theorem retryWrite_hit (ok : ℕ → Bool) (i n : ℕ) (h : ok i = true) :
    retryWrite ok i (n + 1) = true := by
  show (if ok i then true else retryWrite ok (i + 1) n) = true
  simp [h]

theorem retryWrite_miss (ok : ℕ → Bool) (i n : ℕ) (h : ok i = false) :
    retryWrite ok i (n + 1) = retryWrite ok (i + 1) n := by
  show (if ok i then true else retryWrite ok (i + 1) n) = _
  simp [h]

/-- Claim C5: a write that fails on its first attempt and succeeds on the
retry stores exactly one document (the stored list grows by exactly one
copy, not zero and not two); a write whose first three attempts all fail
stores nothing and increments the ingestion-failure count; and in either
case the subscription loop continues with the remaining messages. -/
theorem retry_spec (ok : ℕ → Bool) (st : IngestState) (r : Reading) :
    (ok 0 = false → ok 1 = true →
      (storeWithRetry ok st r).stored = st.stored ++ [r]
      ∧ (storeWithRetry ok st r).stored.length = st.stored.length + 1
      ∧ (storeWithRetry ok st r).failures = st.failures)
    ∧ ((∀ i, i < maxWriteAttempts → ok i = false) →
      (storeWithRetry ok st r).stored = st.stored
      ∧ (storeWithRetry ok st r).failures = st.failures + 1)
    ∧ (∀ now m ms st', runIngestRetry now st' (m :: ms) =
        runIngestRetry now (ingestStepRetry now m.2 st' m.1) ms) := by
  refine ⟨?_, ?_, fun _ _ _ _ => rfl⟩
  · intro h0 h1
    have e1 : retryWrite ok 0 maxWriteAttempts = retryWrite ok 1 2 :=
      retryWrite_miss ok 0 2 h0
    have hr : retryWrite ok 0 maxWriteAttempts = true := by
      rw [e1]
      exact retryWrite_hit ok 1 1 h1
    simp [storeWithRetry, hr]
  · intro hall
    have e1 : retryWrite ok 0 maxWriteAttempts = retryWrite ok 1 2 :=
      retryWrite_miss ok 0 2 (hall 0 (by decide))
    have e2 : retryWrite ok 1 2 = retryWrite ok 2 1 :=
      retryWrite_miss ok 1 1 (hall 1 (by decide))
    have e3 : retryWrite ok 2 1 = retryWrite ok 3 0 :=
      retryWrite_miss ok 2 0 (hall 2 (by decide))
    have hr : retryWrite ok 0 maxWriteAttempts = false := by
      rw [e1, e2, e3]
      rfl
    simp [storeWithRetry, hr]

/-- Witness for C5 with the oracle that fails attempt 0 and succeeds on
attempt 1: exactly one copy is stored. -/
theorem retry_spec_witness :
    (storeWithRetry (fun i => i == 1) ⟨[], 0, 0⟩ sampleReading1).stored =
      [] ++ [sampleReading1]
    ∧ (storeWithRetry (fun i => i == 1) ⟨[], 0, 0⟩ sampleReading1).stored.length
      = ([] : List Reading).length + 1 :=
  ⟨((retry_spec (fun i => i == 1) ⟨[], 0, 0⟩ sampleReading1).1 rfl rfl).1,
   ((retry_spec (fun i => i == 1) ⟨[], 0, 0⟩ sampleReading1).1 rfl rfl).2.1⟩

/-- Claim C6 (amended): re-running `archive_old_data` after a partial
failure — a crash between the `$out` copy and the `delete_many` — with
the same cutoff produces exactly the state of one complete run, because
the copy phase replaces the archive with the same matched set; the final
archive and hot collections are the old/recent split of the hot
collection.  (No per-`_id` matching takes place; see the counterexample.) -/
theorem archive_rerun_spec (cutoff : ℕ) (st : Store) :
    archive_old_data cutoff (archiveCopyPhase cutoff st) =
      archive_old_data cutoff st
    ∧ (archive_old_data cutoff st).archive =
        st.hot.filter (fun r => decide (r.timestamp < cutoff))
    ∧ (archive_old_data cutoff st).hot =
        st.hot.filter (fun r => !decide (r.timestamp < cutoff)) :=
  ⟨rfl, rfl, rfl⟩

/-- Counterexample to C6 as stated: a document already present in the
archive collection (and no longer in the hot collection) is not skipped
by `_id` — the `$out` stage replaces the archive contents wholesale, so
the previously archived document disappears after a re-run. -/
theorem archive_claim_cex :
    sampleReading3 ∈ (Store.mk [sampleReading1] [sampleReading3]).archive
    ∧ sampleReading3 ∉
        (archive_old_data 100 (Store.mk [sampleReading1] [sampleReading3])).archive := by
  decide

/-- Claim C7: after a TTL sweep whose cutoff is later than a reading's
timestamp, that reading is absent from the swept store and from every
subsequent `list` result; the retention default is the TTL index's
604800 seconds, i.e. 7 days; and expiry is not synchronous with writes —
an ingestion write never removes an existing reading. -/
theorem ttl_spec (cutoff : ℕ) (st : Store) (r : Reading)
    (h : r.timestamp < cutoff) :
    r ∉ (ttlSweep cutoff st).hot
    ∧ (∀ s start? stop? page pageSize,
        r ∉ listReadings (ttlSweep cutoff st) s start? stop? page pageSize)
    ∧ DATA_RETENTION_SECONDS = 604800
    ∧ DATA_RETENTION_SECONDS = 7 * 24 * 60 * 60
    ∧ (∀ st' r', (insertReading st' r').hot = st'.hot ++ [r']) := by
  have hnot : r ∉ (ttlSweep cutoff st).hot := by
    intro hmem
    obtain ⟨_, hcond⟩ := List.mem_filter.mp hmem
    rw [decide_eq_true_eq] at hcond
    omega
  refine ⟨hnot, ?_, rfl, rfl, fun _ _ => rfl⟩
  intro s start? stop? page pageSize hmem
  exact hnot (listReadings_subset_hot _ _ _ _ _ _ r hmem)

/-- Witness for C7: sweeping `sampleStore` at cutoff 15 removes the
timestamp-10 reading. -/
theorem ttl_spec_witness :
    sampleReading1.timestamp < 15
    ∧ sampleReading1 ∉ (ttlSweep 15 sampleStore).hot :=
  ⟨by decide, (ttl_spec 15 sampleStore sampleReading1 (by decide)).1⟩

/-- The state transitions of the modelled system: an ingestion write, a
TTL sweep, the archival job (or its copy phase alone, as left by a
crash), and explicit cleanup.  The Query Service operations are pure
functions of the store and have no transition. -/
inductive SysStep : Store → Store → Prop where
  | ingest (st : Store) (r : Reading) : SysStep st (insertReading st r)
  | sweep (st : Store) (cutoff : ℕ) : SysStep st (ttlSweep cutoff st)
  | archiveCopy (st : Store) (cutoff : ℕ) :
      SysStep st (archiveCopyPhase cutoff st)
  | archiveRun (st : Store) (cutoff : ℕ) :
      SysStep st (archive_old_data cutoff st)
  | cleanup (st : Store) (cutoff : ℕ) : SysStep st (cleanup_old_data cutoff st)

/-- Claim C8: along every transition of the system, each existing reading
is either carried over byte-identical or removed — the new hot collection
is either the old one with exactly one appended reading (ingestion, which
alone creates) or a sublist of the old one (the deletion lifecycle); no
transition modifies a reading in place; and everything in the archive
comes unchanged from the previous archive or from the hot collection. -/
theorem readings_immutable (st st' : Store) (h : SysStep st st') :
    ((∃ r, st'.hot = st.hot ++ [r] ∧ st'.archive = st.archive)
      ∨ st'.hot.Sublist st.hot)
    ∧ (∀ r ∈ st'.archive, r ∈ st.archive ∨ r ∈ st.hot) := by
  cases h with
  | ingest r =>
    exact ⟨Or.inl ⟨r, rfl, rfl⟩, fun r hr => Or.inl hr⟩
  | sweep cutoff =>
    exact ⟨Or.inr (List.filter_sublist _), fun r hr => Or.inl hr⟩
  | archiveCopy cutoff =>
    exact ⟨Or.inr (List.Sublist.refl _),
      fun r hr => Or.inr (List.mem_filter.mp hr).1⟩
  | archiveRun cutoff =>
    exact ⟨Or.inr (List.filter_sublist _),
      fun r hr => Or.inr (List.mem_filter.mp hr).1⟩
  | cleanup cutoff =>
    exact ⟨Or.inr (List.filter_sublist _), fun r hr => Or.inl hr⟩

/-- Witness for C8 at a concrete transition: the TTL sweep of
`sampleStore` at cutoff 15. -/
theorem readings_immutable_witness :
    ((∃ r, (ttlSweep 15 sampleStore).hot = sampleStore.hot ++ [r]
        ∧ (ttlSweep 15 sampleStore).archive = sampleStore.archive)
      ∨ (ttlSweep 15 sampleStore).hot.Sublist sampleStore.hot)
    ∧ (∀ r ∈ (ttlSweep 15 sampleStore).archive,
        r ∈ sampleStore.archive ∨ r ∈ sampleStore.hot) :=
  readings_immutable sampleStore (ttlSweep 15 sampleStore)
    (SysStep.sweep sampleStore 15)
